import Mathlib

/-!
Verification of the message-understanding pipeline of the life-coaching chat
service: the onboarding extractor with its confidence policy, the natural
language time normalizer, the cache and model selector of the chat turn
handler, and the suggestion classifier with its deterministic override
engine.  Every definition below is a shallow embedding of the corresponding
JavaScript function; the ambient clock, the stores and the language model
are passed in as explicit parameters, and side effects are returned as
explicit effect traces.
-/

namespace Coach

/-! ## JavaScript string primitives, over lists of characters -/

/-- Lower-case an ASCII letter, as `String.prototype.toLowerCase` does on
ASCII input (the pipeline only matches ASCII keywords). -/
def lcChar (c : Char) : Char :=
  if 'A' ≤ c ∧ c ≤ 'Z' then Char.ofNat (c.toNat + 32) else c

/-- Lower-case a character list. -/
def lowerL (l : List Char) : List Char := l.map lcChar

/-- Whitespace class of the JavaScript regular-expression `\s` (the ASCII
part, which is all the pipeline ever meets). -/
def isWsC (c : Char) : Bool :=
  c == ' ' || c == '\t' || c == '\n' || c == '\x0d' || c == '\x0b' || c == '\x0c'

/-- Decimal digit test, the `\d` class. -/
def isDigitC (c : Char) : Bool := '0' ≤ c && c ≤ '9'

/-- ASCII letter test, the `[A-Za-z]` class. -/
def isLetterC (c : Char) : Bool :=
  ('a' ≤ c && c ≤ 'z') || ('A' ≤ c && c ≤ 'Z')

/-- Word-character test, the `\w` class. -/
def isWordC (c : Char) : Bool := isLetterC c || isDigitC c || c == '_'

/-- Numeric value of a digit character. -/
def dval (c : Char) : Nat := c.toNat - '0'.toNat

/-- Whether `pat` is an exact leading segment of `l`. -/
def startsL : List Char → List Char → Bool
  | [], _ => true
  | _ :: _, [] => false
  | a :: as, b :: bs => a == b && startsL as bs

/-- Whether `pat` (given in lower case) is a leading segment of `l` up to
ASCII case, as a JavaScript `i`-flagged literal does. -/
def startsCIL : List Char → List Char → Bool
  | [], _ => true
  | _ :: _, [] => false
  | a :: as, b :: bs => a == lcChar b && startsCIL as bs

/-- Whether `pat` occurs as a contiguous segment of `l`
(`String.prototype.includes`). -/
def hasSubL (pat : List Char) : List Char → Bool
  | [] => startsL pat []
  | c :: rest => startsL pat (c :: rest) || hasSubL pat rest

/-- Whether `s` contains `pat` as a substring. -/
def hasSub (pat s : String) : Bool := hasSubL pat.data s.data

/-- Remove leading and trailing JavaScript whitespace
(`String.prototype.trim`). -/
def trimL (l : List Char) : List Char :=
  ((l.dropWhile isWsC).reverse.dropWhile isWsC).reverse

/-- Trim of a string. -/
def jsTrim (s : String) : String := String.mk (trimL s.data)

/-- Decimal rendering padded to two digits, as
`String(n).padStart(2, "0")` (three-digit numbers pass through). -/
def padTwo (n : Nat) : String :=
  if n < 10 then "0" ++ toString n else toString n

/-- Decimal rendering padded to four digits, for ISO years. -/
def padFour (n : Nat) : String :=
  if n < 10 then "000" ++ toString n
  else if n < 100 then "00" ++ toString n
  else if n < 1000 then "0" ++ toString n
  else toString n

/-! ## Calendar arithmetic

Dates are day counts since 1970-01-01 (which was a Thursday); this mirrors
the JavaScript `Date` value the source manipulates with `getDate`,
`setDate`, `getDay` and `toISOString`. -/

/-- Day of week of an epoch day count, with the `Date.prototype.getDay`
convention Sunday = 0 .. Saturday = 6. -/
def dowOf (days : Nat) : Nat := (days + 4) % 7

/-- Civil date `(year, month, day)` of an epoch day count, the standard
days-from-civil inversion used by `Date.prototype.toISOString`. -/
def civilOfDays (days : Nat) : Nat × Nat × Nat :=
  let z := days + 719468
  let era := z / 146097
  let doe := z % 146097
  let yoe := (doe - doe / 1460 + doe / 36524 - doe / 146096) / 365
  let y := yoe + era * 400
  let doy := doe - (365 * yoe + yoe / 4 - yoe / 100)
  let mp := (5 * doy + 2) / 153
  let d := doy - (153 * mp + 2) / 5 + 1
  let m := if mp < 10 then mp + 3 else mp - 9
  (if m ≤ 2 then y + 1 else y, m, d)

/-- The `YYYY-MM-DD` part of `Date.prototype.toISOString`. -/
def isoOfDays (days : Nat) : String :=
  let c := civilOfDays days
  padFour c.1 ++ "-" ++ padTwo c.2.1 ++ "-" ++ padTwo c.2.2

/-! ## Time Normalizer: `parseNaturalLanguageTime` -/

/-- Result record of `parseNaturalLanguageTime`: an ISO date and an `HH:mm`
time string. -/
structure TimeResult where
  date : String
  time : String
deriving Repr, DecidableEq

/-- Time-of-day keyword table, in the iteration order of the source object
literal. -/
def timeWords : List (String × String) :=
  [("morning", "09:00"), ("noon", "12:00"), ("afternoon", "14:00"),
   ("evening", "18:00"), ("night", "20:00")]

/-- First time-of-day keyword contained in the lower-cased text, mapped to
its clock string (the `for … break` loop of the source). -/
def keywordTime (lowerText : List Char) : Option String :=
  (timeWords.find? fun p => hasSubL p.1.data lowerText).map (·.2)

/-- Explicit clock match of the regular expression
`(\d{1,2}):?(\d{2})?\s*(am|pm)?` with the `i` flag: one or two digits taken
greedily, an optional colon, an optional two-digit minute group, optional
whitespace, and an optional meridiem.  `isPm = some true` records `pm`,
`some false` records `am`, `none` records no meridiem. -/
structure ClockMatch where
  hours : Nat
  minutes : Nat
  isPm : Option Bool
deriving Repr, DecidableEq

/-- Parse the clock match that starts at digit `c` (the rest of the pattern
is all optional, so a match always succeeds at a digit). -/
def clockAt (c : Char) (rest : List Char) : ClockMatch :=
  let hr := match rest with
    | d :: r => if isDigitC d then (10 * dval c + dval d, r) else (dval c, rest)
    | [] => (dval c, rest)
  let r1 := match hr.2 with
    | ':' :: r => r
    | _ => hr.2
  let mi : Option Nat × List Char := match r1 with
    | a :: b :: r => if isDigitC a && isDigitC b then (some (10 * dval a + dval b), r) else (none, r1)
    | _ => (none, r1)
  let r3 := mi.2.dropWhile isWsC
  let per : Option Bool :=
    if startsCIL "am".data r3 then some false
    else if startsCIL "pm".data r3 then some true
    else none
  ⟨hr.1, mi.1.getD 0, per⟩

/-- Leftmost clock match of the text (`String.prototype.match`): the match
must start at a digit, and the first digit position always yields one. -/
def clockFrom : List Char → Option ClockMatch
  | [] => none
  | c :: rest => if isDigitC c then some (clockAt c rest) else clockFrom rest

/-- Render a clock match as `HH:mm`, after the source's 12-hour
adjustment: `pm` adds 12 unless the hour is 12, `am` turns 12 into 0. -/
def fmtClock (m : ClockMatch) : String :=
  let h :=
    if m.isPm == some true ∧ m.hours ≠ 12 then m.hours + 12
    else if m.isPm == some false ∧ m.hours = 12 then 0
    else m.hours
  padTwo h ++ ":" ++ padTwo m.minutes

/-- Weekday names in the order of the source's `days` array, whose
`indexOf` therefore numbers Monday = 0 .. Sunday = 6 (unlike `getDay`,
which numbers Sunday = 0 .. Saturday = 6). -/
def dayNamesIdx : List String :=
  ["monday", "tuesday", "wednesday", "thursday", "friday", "saturday", "sunday"]

/-- Index (in `dayNamesIdx` order) of the first weekday name contained in
the lower-cased text, following the source's `for … break` loop. -/
def firstDayIdx (lowerText : List Char) : Option Nat :=
  dayNamesIdx.findIdx? fun d => hasSubL d.data lowerText

/-- Date portion of `parseNaturalLanguageTime`, as an epoch day count:
`tomorrow` adds one day, `today` keeps the current day, `next <weekday>`
and a bare weekday name advance by `targetDay - currentDay` with the
source's roll-forward rules.  Note the source compares `indexOf` positions
(Monday = 0) against `getDay` values (Sunday = 0). -/
def parseDateDays (now : Nat) (lowerText : List Char) : Nat :=
  if hasSubL "tomorrow".data lowerText then now + 1
  else if hasSubL "today".data lowerText then now
  else if hasSubL "next".data lowerText then
    match firstDayIdx lowerText with
    | some targetDay =>
        let currentDay := dowOf now
        let ahead : Int := (targetDay : Int) - (currentDay : Int)
        let ahead := if ahead ≤ 0 then ahead + 7 else ahead
        now + ahead.toNat
    | none => now
  else
    match firstDayIdx lowerText with
    | some targetDay =>
        let currentDay := dowOf now
        let ahead : Int := (targetDay : Int) - (currentDay : Int)
        let ahead := if ahead < 0 then ahead + 7 else ahead
        let ahead := if ahead = 0 then 7 else ahead
        now + ahead.toNat
    | none => now

/-- The Time Normalizer `parseNaturalLanguageTime(text)`: time-of-day
keyword first, overridden by any explicit clock match, defaulting to
`10:00`; date from the relative-date rules.  The ambient `new Date()` is
the explicit `now` parameter (an epoch day count). -/
def parseNaturalLanguageTime (now : Nat) (text : String) : TimeResult :=
  let lowerText := lowerL text.data
  let kw := keywordTime lowerText
  let time := match clockFrom text.data with
    | some m => some (fmtClock m)
    | none => kw
  ⟨isoOfDays (parseDateDays now lowerText), time.getD "10:00"⟩

/-! ## Onboarding Extractor: `parseOnboardingReply`

The extractor is embedded matcher by matcher.  Each JavaScript regular
expression of the source is implemented as an executable leftmost-match
scanner with the engine's greedy/lazy/backtracking behaviour spelled out. -/

/-- First `some` of a list of options (a regex alternation tried in
order). -/
def firstSome {α : Type} : List (Option α) → Option α
  | [] => none
  | a :: t => a <|> firstSome t

/-- Capture of `\s+([A-Z][a-z]+(?:\s+[A-Z][a-z]+)?)` with the `i` flag
(so both classes mean any ASCII letter): mandatory whitespace, then a
letter run of length at least two, then optionally more whitespace and a
second such run; the capture keeps the separating whitespace verbatim. -/
def nameCaptureAt (cs : List Char) : Option (List Char) :=
  let ws1 := cs.takeWhile isWsC
  if ws1.isEmpty then none
  else
    let r1 := cs.dropWhile isWsC
    let w1 := r1.takeWhile isLetterC
    if w1.length < 2 then none
    else
      let r2 := r1.drop w1.length
      let ws2 := r2.takeWhile isWsC
      if ws2.isEmpty then some w1
      else
        let w2 := (r2.dropWhile isWsC).takeWhile isLetterC
        if w2.length < 2 then some w1 else some (w1 ++ ws2 ++ w2)

/-- Leftmost match of `/my name is\s+([A-Z][a-z]+(?:\s+[A-Z][a-z]+)?)/i`,
returning the capture group. -/
def scanNameMatch : List Char → Option (List Char)
  | [] => none
  | c :: rest =>
      (if startsCIL "my name is".data (c :: rest)
       then nameCaptureAt ((c :: rest).drop 10) else none) <|> scanNameMatch rest

/-- Anchored match of `/^(?:i am|i\x27m)\s+([A-Z][a-z]+(?:\s+[A-Z][a-z]+)?)/i`:
the alternation tries `i am` first, then the apostrophe form. -/
def iAmCapture (cs : List Char) : Option (List Char) :=
  if startsCIL "i am".data cs then nameCaptureAt (cs.drop 4)
  else if startsCIL "i\x27m".data cs then nameCaptureAt (cs.drop 3)
  else none

/-- Guard `/goals?:|tone:|i want to|i\x27d like to|prefer/i.test(text)` that
must also hold before an `I am X` name is believed. -/
def iAmGuard (lower : List Char) : Bool :=
  hasSubL "goals:".data lower || hasSubL "goal:".data lower ||
  hasSubL "tone:".data lower || hasSubL "i want to".data lower ||
  hasSubL "i\x27d like to".data lower || hasSubL "prefer".data lower

/-- Lookahead `(?=tone:|preference:|$)` of the goals-field pattern. -/
def lookaheadTP (cs : List Char) : Bool :=
  startsCIL "tone:".data cs || startsCIL "preference:".data cs

/-- Lazy expansion of `([^\n]*?)` up to the first position where the
lookahead holds (or the end of the string); a newline before that kills
the match, exactly as `[^\n]` does. -/
def lazyToLookahead : List Char → Option (List Char)
  | [] => some []
  | c :: rest =>
      if lookaheadTP (c :: rest) then some []
      else if c == '\n' then none
      else (lazyToLookahead rest).map (c :: ·)

/-- Leftmost match of `/goals?:\s*([^\n]*?)(?=tone:|preference:|$)/i`,
returning the capture.  The greedy `\s*` is safe to take maximally: the
lookahead alternatives start with a non-whitespace character, so no
backtracking into the whitespace run can create a match that the maximal
run misses. -/
def scanGoalsField : List Char → Option (List Char)
  | [] => none
  | c :: rest =>
      (let cs := c :: rest
       let after : Option (List Char) :=
         if startsCIL "goals:".data cs then some (cs.drop 6)
         else if startsCIL "goal:".data cs then some (cs.drop 5)
         else none
       match after with
       | some a => lazyToLookahead (a.dropWhile isWsC)
       | none => none) <|> scanGoalsField rest

/-- Split a character list at every occurrence of one of `seps`
(JavaScript `String.prototype.split` on a character class). -/
def splitChars (seps : List Char) : List Char → List (List Char)
  | [] => [[]]
  | c :: rest =>
      if seps.contains c then [] :: splitChars seps rest
      else
        match splitChars seps rest with
        | h :: t => (c :: h) :: t
        | [] => [[c]]

/-- Split of the goals field on `/;\s*|,\s*|(?:\n\s*-\s*)/`: the captured
field contains no newline (it comes from `[^\n]*?`), so the bullet-item
alternative can never match inside it and the split reduces to the `;` and
`,` alternatives; each separator consumes the run of whitespace after the
`;` or `,`, which is the same as splitting on the two characters and
stripping leading whitespace from every item after the first. -/
def splitGoalsSep (cs : List Char) : List (List Char) :=
  match splitChars [';', ','] cs with
  | [] => []
  | h :: t => h :: t.map (·.dropWhile isWsC)

/-- Removal of a leading `and `/`or ` from a goal candidate
(`replace(/^(?:and|or)\s+/i, "")`): the alternative must be followed by at
least one whitespace character, which is consumed greedily. -/
def stripAndOr (cs : List Char) : List Char :=
  let tryPat (plen : Nat) (p : List Char) : Option (List Char) :=
    if startsCIL p cs then
      let r := cs.drop plen
      if (r.takeWhile isWsC).isEmpty then none else some (r.dropWhile isWsC)
    else none
  ((tryPat 3 "and".data) <|> (tryPat 2 "or".data)).getD cs

/-- Goal-intent markers, in the alternation order of the source. -/
def goalMarkers : List String :=
  ["i want to", "i\x27d like to", "i would like to", "i\x27m aiming to", "goal is to"]

/-- Try every marker at the current position: the marker must match
case-insensitively and be followed by at least one whitespace character;
the result is the line remainder after the marker and the greedy `\s+`. -/
def markerAt (cs : List Char) : Option (List Char) :=
  firstSome (goalMarkers.map fun p =>
    if startsCIL p.data cs then
      let r := cs.drop p.data.length
      if (r.takeWhile isWsC).isEmpty then none else some (r.dropWhile isWsC)
    else none)

/-- Leftmost application of
`replace(/^.*?(?:i want to|i\x27d like to|i would like to|i\x27m aiming to|goal is to)\s+/i, "")`:
the lazy prefix stops at the first position where a marker followed by
whitespace matches. -/
def stripToMarker : List Char → Option (List Char)
  | [] => none
  | c :: rest => markerAt (c :: rest) <|> stripToMarker rest

/-- Goal part of an intent line: the remainder after the first
marker-plus-whitespace, or the whole line when the replace pattern finds
no match (a marker with nothing after it). -/
def goalPartOf (line : List Char) : List Char := (stripToMarker line).getD line

/-- Lower-case a string. -/
def lowerS (s : String) : String := String.mk (lowerL s.data)

/-- Case-insensitive deduplication with a `seen` set: first occurrence
wins, order is preserved. -/
def dedupCI (l : List String) : List String := go [] l where
  go : List String → List String → List String
    | _, [] => []
    | seen, g :: t =>
        if seen.contains (lowerS g) then go seen t
        else g :: go (lowerS g :: seen) t

/-- Terminator class `[,\.\n]` of the tone-field pattern. -/
def toneTermC (c : Char) : Bool := c == ',' || c == '.' || c == '\n'

/-- Value class `[a-zA-Z\- ]` of the tone-field pattern. -/
def toneClassC (c : Char) : Bool := isLetterC c || c == '-' || c == ' '

/-- Lazy expansion of `([a-zA-Z\- ]+?)(?:[,\.\n]|$)`: the shortest
non-empty run of class characters that is immediately followed by a
terminator or the end of the string. -/
def toneValueFrom : List Char → Option (List Char)
  | [] => none
  | c :: rest =>
      if toneClassC c then
        match rest with
        | [] => some [c]
        | d :: _ =>
            if toneTermC d then some [c]
            else (toneValueFrom rest).map (c :: ·)
      else none

/-- Backtracking over the greedy `\s*` after `tone:`: the maximal
whitespace run is tried first, then one trailing whitespace character at a
time is handed back to the value group (a space is in the value class, so
this can succeed where the maximal run fails). -/
def toneAfterColon (cs : List Char) : Option (List Char) :=
  go (cs.takeWhile isWsC).reverse (cs.dropWhile isWsC) where
  go : List Char → List Char → Option (List Char)
    | [], rest => toneValueFrom rest
    | w :: wsRev, rest => toneValueFrom rest <|> go wsRev (w :: rest)

/-- Leftmost match of `/tone:\s*([a-zA-Z\- ]+?)(?:[,\.\n]|$)/i`, returning
the capture. -/
def scanToneField : List Char → Option (List Char)
  | [] => none
  | c :: rest =>
      (if startsCIL "tone:".data (c :: rest)
       then toneAfterColon ((c :: rest).drop 5) else none) <|> scanToneField rest

/-- Tone keyword list, in the scan order of the source. -/
def toneKeywords : List String :=
  ["encouraging", "supportive", "energizing", "energetic",
   "firm", "strict", "gentle", "motivating", "motivational",
   "uplifting", "positive", "realistic", "direct", "compassionate"]

/-- Context keywords `(?:tone|prefer|motivat)`, in alternation order. -/
def ctxKw : List String := ["tone", "prefer", "motivat"]

/-- Word-boundary `\b` between two optional characters (out of range
counts as a non-word character). -/
def bAt (a b : Option Char) : Bool :=
  (a.elim false isWordC) != (b.elim false isWordC)

/-- Capture class `[\w\- ]` of the context pattern. -/
def ctxClassC (c : Char) : Bool := isWordC c || c == '-' || c == ' '

/-- Backtracking of the greedy `([\w\- ]+)\b`: drop characters from the
end of the maximal run until the trailing word boundary holds.  The first
argument is the run reversed, the second the character right after it. -/
def shrinkCap : List Char → Option Char → Option (List Char)
  | [], _ => none
  | c :: rev, after =>
      if bAt (some c) after then some ((c :: rev).reverse)
      else shrinkCap rev (some c)

/-- Attempt `\b([\w\- ]+)\b` at the current position, `prev` being the
character just before it. -/
def capWithB (prev : Char) (cs : List Char) : Option (List Char) :=
  if bAt (some prev) cs.head? then
    let run := cs.takeWhile ctxClassC
    shrinkCap run.reverse ((cs.drop run.length).head?)
  else none

/-- Lazy expansion of `[^\.]*?` followed by the bounded capture: at every
position first try the capture, otherwise consume one non-period
character; the returned list is the text matched from this position on. -/
def ctxScanInner (prev : Char) : List Char → Option (List Char)
  | [] => capWithB prev []
  | c :: rest =>
      match capWithB prev (c :: rest) with
      | some cap => some cap
      | none =>
          if c == '.' then none
          else (ctxScanInner c rest).map (c :: ·)

/-- Attempt the whole context pattern at the current position with the
given keyword, returning the full match text `match[0]`. -/
def ctxTryAt (k : String) (cs : List Char) : Option (List Char) :=
  if startsCIL k.data cs then
    let kw := cs.take k.length
    match kw.getLast? with
    | some lastC => (ctxScanInner lastC (cs.drop k.length)).map (kw ++ ·)
    | none => none
  else none

/-- Leftmost match `match[0]` of
`/(?:tone|prefer|motivat)[^\.]*?\b([\w\- ]+)\b/i`. -/
def ctxFrom : List Char → Option (List Char)
  | [] => none
  | c :: rest =>
      firstSome (ctxKw.map fun k => ctxTryAt k (c :: rest)) <|> ctxFrom rest

/-- Result record of `parseOnboardingReply`; `tone` models the optional
`preferences.tone` field of the source object. -/
structure ExtractionResult where
  summary : String
  goals : List String
  tone : Option String
  confidence : String
  warnings : List String
deriving Repr, DecidableEq

/-- Distinguished summary sentinel meaning that no explicit name was
found. -/
def pendingSentinel : String := "[Pending explicit response]"

/-- Confidence verdict from the three field-presence booleans, exactly the
cascade at the end of the source parser. -/
def confOf (hn hg ht : Bool) : String :=
  if hn && hg && ht then "high"
  else if (hn && hg) || (hg && ht) then "medium"
  else "low"

/-- Name/summary stage: returns the summary value and the warnings it
contributes. -/
def extractSummary (text : String) : String × List String :=
  let extractedName : String :=
    match scanNameMatch text.data with
    | some cap => String.mk (trimL cap)
    | none =>
        match iAmCapture text.data with
        | some cap =>
            if iAmGuard (lowerL text.data) then String.mk (trimL cap) else ""
        | none => ""
  if extractedName ≠ "" ∧ extractedName.length > 1 ∧ extractedName.length < 50 then
    (extractedName, [])
  else if extractedName = "" then
    (pendingSentinel,
     ["Could not extract name/summary explicitly - falling back to user contact"])
  else ("", [])

/-- Goals stage, before the cap and the deduplication: explicit
`Goals:` field first, otherwise the per-line intent-marker scan. -/
def extractGoalsRaw (text : String) : List String :=
  let goals1 : List String :=
    match scanGoalsField text.data with
    | some cap =>
        if cap.isEmpty then []
        else
          ((splitGoalsSep cap).map fun g => String.mk (trimL (stripAndOr g))).filter
            fun g => g.length > 2 ∧ g.length < 100
    | none => []
  if goals1.isEmpty then
    let lines := ((splitChars ['.', '\n'] text.data).map trimL).filter (¬ ·.isEmpty)
    lines.filterMap fun line =>
      if goalMarkers.any (fun p => hasSubL p.data (lowerL line)) then
        let gp := trimL (goalPartOf line)
        if gp.length > 2 ∧ gp.length < 100 then some (String.mk gp) else none
      else none
  else goals1

/-- Goals after the overflow cap of 10 (applied before deduplication). -/
def cappedGoals (text : String) : List String :=
  let raw := extractGoalsRaw text
  if raw.length > 10 then raw.take 10 else raw

/-- Warnings contributed by the goals stage. -/
def goalsWarnings (text : String) : List String :=
  let raw := extractGoalsRaw text
  if raw.isEmpty then ["No goals detected - user may not have provided them"]
  else if raw.length > 10 then
    ["Extracted " ++ toString raw.length ++ " goals - may be too many, truncating to 10"]
  else []

/-- Tone stage: explicit `tone:` field first (trimmed and lower-cased),
otherwise the context-window keyword scan. -/
def extractTone (text : String) : String :=
  let tone1 : String :=
    match scanToneField text.data with
    | some cap => String.mk (lowerL (trimL cap))
    | none => ""
  if tone1 = "" then
    match ctxFrom text.data with
    | some m0 => (toneKeywords.find? fun kw => hasSubL kw.data (lowerL m0)).getD ""
    | none => ""
  else tone1

/-- The onboarding parser `parseOnboardingReply(text)`: short text
short-circuits to a low-confidence result; otherwise the three extraction
stages run and the confidence is computed from which fields are present. -/
def parseOnboardingReply (text : String) : ExtractionResult :=
  if (trimL text.data).length < 20 then
    ⟨"", [], none, "low", ["Text too short to parse reliably"]⟩
  else
    let sw := extractSummary text
    let goals := dedupCI (cappedGoals text)
    let toneV := extractTone text
    let tone : Option String := if toneV ≠ "" then some toneV else none
    ⟨sw.1, goals, tone,
     confOf ((sw.1 != "") && (sw.1 != pendingSentinel)) (!goals.isEmpty) tone.isSome,
     sw.2 ++ goalsWarnings text ++ (if toneV = "" then ["No tone/motivation preference detected"] else [])⟩

/-- Truthiness of the summary field, as the source computes `hasName`. -/
def hasNameR (r : ExtractionResult) : Bool :=
  (r.summary != "") && (r.summary != pendingSentinel)

/-- Presence of at least one goal (`hasGoals`). -/
def hasGoalsR (r : ExtractionResult) : Bool := !r.goals.isEmpty

/-- Presence of a tone preference (`hasTone`). -/
def hasToneR (r : ExtractionResult) : Bool := r.tone.isSome

/-! ## Model/Cache Selector (`aiService.js`) -/

/-- Word split used by the cache key: accumulate non-whitespace runs. -/
def wordsAux : List Char → List Char → List (List Char)
  | acc, [] => if acc.isEmpty then [] else [acc.reverse]
  | acc, c :: rest =>
      if isWsC c then
        if acc.isEmpty then wordsAux [] rest else acc.reverse :: wordsAux [] rest
      else wordsAux (c :: acc) rest

/-- Cache key hash `hashMessage`: lower-case, trim, split on whitespace,
first ten words joined with colons. -/
def hashMessage (m : String) : String :=
  let ws := wordsAux [] (trimL (lowerL m.data))
  String.intercalate ":" ((ws.map String.mk).take 10)

/-- One stored cache entry of the process-wide response cache. -/
structure CacheEntry where
  key : String
  response : String
  timestamp : Nat
deriving Repr, DecidableEq

/-- Cache TTL of 24 hours, in milliseconds. -/
def cacheDuration : Nat := 24 * 60 * 60 * 1000

/-- Lookup `getCachedResponse(userId, message)`: key is
`userId + ":" + hashMessage(message)`; a fresh entry is returned, an
expired one is treated as a miss. -/
def getCachedResponse (cache : List CacheEntry) (nowMs : Nat)
    (userId message : String) : Option String :=
  let ck := userId ++ ":" ++ hashMessage message
  match cache.find? (·.key == ck) with
  | some e => if nowMs - e.timestamp < cacheDuration then some e.response else none
  | none => none

/-- Model-tier selection `selectModelForTask`: cheap tier for short
`what` questions and for `list`/`define`/`summarize` requests, main tier
otherwise. -/
def selectModelForTask (message : String) : String :=
  let lower := lowerS message
  if (hasSub "what" lower ∧ lower.length < 100) ∨ hasSub "list" lower ∨
     hasSub "define" lower ∨ hasSub "summarize" lower then "cheap"
  else "main"

/-! ## Intake Gate: `tryHandleOnboardingReply` and `generateChatResponse` -/

/-- Substring occurrence followed by a word boundary, for the `i am\b` and
similar alternatives: the pattern text must not be continued by a word
character. -/
def startsWithBd (pat cs : List Char) : Bool :=
  startsL pat cs && !((cs.drop pat.length).head?.elim false isWordC)

/-- Any position where `pat` is followed by a word boundary. -/
def hasSubBL (pat : List Char) : List Char → Bool
  | [] => startsWithBd pat []
  | c :: rest => startsWithBd pat (c :: rest) || hasSubBL pat rest

/-- Gate alternative `my name is|i am\b|i\x27m\b` on the lower-cased text. -/
def gateHasName (lower : List Char) : Bool :=
  hasSubL "my name is".data lower || hasSubBL "i am".data lower ||
  hasSubBL "i\x27m".data lower

/-- Gate alternative
`goals?:|goal:|i want to|i\x27d like to|i would like to|i\x27m aiming|aiming to`. -/
def gateHasGoals (lower : List Char) : Bool :=
  hasSubL "goals:".data lower || hasSubL "goal:".data lower ||
  hasSubL "i want to".data lower || hasSubL "i\x27d like to".data lower ||
  hasSubL "i would like to".data lower || hasSubL "i\x27m aiming".data lower ||
  hasSubL "aiming to".data lower

/-- Gate alternative
`tone:|encourag|support|energiz|firm|strict|gentle|motiv|prefer`. -/
def gateHasTone (lower : List Char) : Bool :=
  hasSubL "tone:".data lower || hasSubL "encourag".data lower ||
  hasSubL "support".data lower || hasSubL "energiz".data lower ||
  hasSubL "firm".data lower || hasSubL "strict".data lower ||
  hasSubL "gentle".data lower || hasSubL "motiv".data lower ||
  hasSubL "prefer".data lower

/-- Profile fragment written to the store by a successful extraction:
only non-empty extracted fields, plus the extraction metadata.  The goals
are keyed by the current year, as in the source payload. -/
structure ProfilePayload where
  summary : Option String
  goals : Option (String × List String)
  tone : Option String
  extractedAt : Nat
  extractionConfidence : String
  extractionWarnings : Option (List String)
deriving Repr, DecidableEq

/-- Payload constructed from a parse result at day `now`. -/
def mkPayload (now : Nat) (p : ExtractionResult) : ProfilePayload :=
  ⟨if hasNameR p then some p.summary else none,
   if !p.goals.isEmpty then some (padFour (civilOfDays now).1, p.goals) else none,
   p.tone,
   now, p.confidence,
   if !p.warnings.isEmpty then some p.warnings else none⟩

/-- Emptiness check of the data portion of the payload, before the
metadata fields are attached (`Object.keys(memoryPayload).length === 0`). -/
def payloadDataEmpty (p : ExtractionResult) : Bool :=
  !(hasNameR p) && p.goals.isEmpty && p.tone.isNone

/-- The onboarding handler `tryHandleOnboardingReply(userId, message)`:
returns whether data was saved together with the list of store writes it
performed (the external upsert is assumed to succeed; a failure would be
caught and reported as not-saved). -/
def tryHandleOnboardingReply (now : Nat) (message : String) :
    Bool × List ProfilePayload :=
  if (trimL message.data).length < 20 then (false, [])
  else
    let lower := lowerL message.data
    if !(gateHasName lower || gateHasGoals lower || gateHasTone lower) then (false, [])
    else
      let parsed := parseOnboardingReply message
      if parsed.confidence = "low" then (false, [])
      else if payloadDataEmpty parsed then (false, [])
      else (true, [mkPayload now parsed])

/-- Observable side effects of one chat turn, in order. -/
inductive Effect where
  | cacheLookup : Effect
  | storeWrite : ProfilePayload → Effect
  | llmCall : Bool → Effect
  | cacheWrite : Effect
deriving Repr, DecidableEq

/-- Environment of one chat turn: the shared cache and clock, the
conversation history, the stored user context, and the language model
(its availability and its response text). -/
structure ChatEnv where
  cache : List CacheEntry
  nowMs : Nat
  nowDays : Nat
  history : List String
  userContext : String
  modelOk : Bool
  modelResponse : String
deriving Repr, DecidableEq

/-- Fixed first-contact onboarding prompt returned without a model call. -/
def onboardingPrompt : String :=
  "Thanks for starting a chat! Before we begin, I\x27d love to learn a bit about you so I can personalize my responses.\nPlease reply with a short answer containing:\n- Who you are (name or short summary)\n- 2–4 goals you want to work on (fitness, learning, career, etc.)\n- How you\x27d like to be motivated (e.g. encouraging, supportive, energizing, firm)\n\nExample reply:\nMy name is Sam. Goals: Run a half marathon; Learn Rust; Improve sleep. Tone: encouraging\n\nYou can just write naturally — I\x27ll take care of saving this in your profile."

/-- Fixed clarification re-prompt returned without a model call. -/
def clarificationPrompt : String :=
  "I caught some profile info, but I want to make sure I get it right. Could you re-phrase using this format?\n\nMy name is [your name]. Goals: [goal 1]; [goal 2]; [goal 3]. Tone: [encouraging/supportive/energizing/firm/etc].\n\nExample: My name is Alex. Goals: Run a half-marathon; Learn Python; Improve sleep. Tone: supportive"

/-- Acknowledgement returned after a successful extraction. -/
def ackMessage : String :=
  "Perfect! I saved your profile and preferences. Now, how can I help you today?"

/-- Keyword test of the clarification branch
(`my name is|i am\b|i\x27m\b|goals?:|goal:|i want to|i\x27d like to|tone:|prefer`). -/
def chatKeywordGate (lower : List Char) : Bool :=
  hasSubL "my name is".data lower || hasSubBL "i am".data lower ||
  hasSubBL "i\x27m".data lower || hasSubL "goals:".data lower ||
  hasSubL "goal:".data lower || hasSubL "i want to".data lower ||
  hasSubL "i\x27d like to".data lower || hasSubL "tone:".data lower ||
  hasSubL "prefer".data lower

/-- Chat turn after the cache check: onboarding prompt, extraction with
acknowledgement, clarification, or the main model flow.  The result is
`none` when the model call fails (the error propagates to the caller),
together with the effect trace of the turn. -/
def chatMain (env : ChatEnv) (userMessage : String) : Option String × List Effect :=
  let modelCheap := selectModelForTask userMessage == "cheap"
  let onboardingInitiated := !env.history.isEmpty
  if (env.userContext == "" || jsTrim env.userContext == "") && !onboardingInitiated then
    (some onboardingPrompt, [])
  else
    let tr := tryHandleOnboardingReply env.nowDays userMessage
    let es := tr.2.map Effect.storeWrite
    if tr.1 then (some ackMessage, es)
    else if chatKeywordGate (lowerL userMessage.data) && env.userContext == "" then
      (some clarificationPrompt, es)
    else if env.modelOk then
      (some env.modelResponse, es ++ [Effect.llmCall modelCheap, Effect.cacheWrite])
    else (none, es ++ [Effect.llmCall modelCheap])

/-- The chat turn handler `generateChatResponse(userId, userMessage)`:
the response cache is consulted first on every turn (returning a fresh
truthy hit immediately), then the intake-gate branches run. -/
def generateChatResponse (env : ChatEnv) (userId userMessage : String) :
    Option String × List Effect :=
  let rest :=
    let m := chatMain env userMessage
    (m.1, Effect.cacheLookup :: m.2)
  match getCachedResponse env.cache env.nowMs userId userMessage with
  | some r => if r == "" then rest else (some r, [Effect.cacheLookup])
  | none => rest

/-! ## JSON values and `JSON.parse`

The classifier receives best-effort JSON text from the language model,
extracts the outermost brace span with `/\x7b[\s\S]*\x7d/` and runs
`JSON.parse` on it inside a try/catch.  The parser below implements the
JSON grammar; a fractional or exponent part is accepted syntactically but
the numeric value keeps the integer part only (every number the classifier
reads is an integer weekday). -/

/-- JSON values. -/
inductive Json where
  | null : Json
  | bool : Bool → Json
  | num : Int → Json
  | str : String → Json
  | arr : List Json → Json
  | obj : List (String × Json) → Json
deriving Repr

/-- JSON insignificant whitespace. -/
def skipWsJ (cs : List Char) : List Char :=
  cs.dropWhile fun c => c == ' ' || c == '\t' || c == '\n' || c == '\x0d'

/-- Hex digit value. -/
def hexVal (c : Char) : Option Nat :=
  if isDigitC c then some (dval c)
  else if 'a' ≤ c ∧ c ≤ 'f' then some (c.toNat - 'a'.toNat + 10)
  else if 'A' ≤ c ∧ c ≤ 'F' then some (c.toNat - 'A'.toNat + 10)
  else none

/-- JSON string body parser, after the opening quote: returns the decoded
content and the remainder after the closing quote.  Unescaped control
characters and unknown escapes are rejected, as `JSON.parse` rejects
them. -/
def parseJStr : Nat → List Char → Option (List Char × List Char)
  | 0, _ => none
  | _ + 1, [] => none
  | f + 1, c :: rest =>
      if c == '"' then some ([], rest)
      else if c == '\\' then
        match rest with
        | [] => none
        | e :: r2 =>
            let dec : Option (Char × List Char) :=
              if e == '"' then some ('"', r2)
              else if e == '\\' then some ('\\', r2)
              else if e == '/' then some ('/', r2)
              else if e == 'b' then some ('\x08', r2)
              else if e == 'f' then some ('\x0c', r2)
              else if e == 'n' then some ('\n', r2)
              else if e == 'r' then some ('\x0d', r2)
              else if e == 't' then some ('\t', r2)
              else if e == 'u' then
                match r2 with
                | h1 :: h2 :: h3 :: h4 :: r3 =>
                    match hexVal h1, hexVal h2, hexVal h3, hexVal h4 with
                    | some a, some b, some cc, some d =>
                        some (Char.ofNat (((a * 16 + b) * 16 + cc) * 16 + d), r3)
                    | _, _, _, _ => none
                | _ => none
              else none
            match dec with
            | some (ch, r) => (parseJStr f r).map fun p => (ch :: p.1, p.2)
            | none => none
      else if c.toNat < 32 then none
      else (parseJStr f rest).map fun p => (c :: p.1, p.2)

/-- JSON number parser: optional minus, integer part without a spurious
leading zero, optional fraction and exponent (validated, value dropped). -/
def parseJNum (cs : List Char) : Option (Int × List Char) :=
  let sn : Bool × List Char := match cs with
    | '-' :: r => (true, r)
    | _ => (false, cs)
  let ds := sn.2.takeWhile isDigitC
  if ds.isEmpty then none
  else if ds.length > 1 && ds.head? == some '0' then none
  else
    let v : Nat := ds.foldl (fun a c => a * 10 + dval c) 0
    let r2 := sn.2.drop ds.length
    let r3 : Option (List Char) := match r2 with
      | '.' :: r =>
          let fs := r.takeWhile isDigitC
          if fs.isEmpty then none else some (r.drop fs.length)
      | _ => some r2
    match r3 with
    | none => none
    | some r3 =>
        let r4 : Option (List Char) := match r3 with
          | e :: r =>
              if e == 'e' || e == 'E' then
                let r' := match r with
                  | '+' :: rr => rr
                  | '-' :: rr => rr
                  | _ => r
                let es := r'.takeWhile isDigitC
                if es.isEmpty then none else some (r'.drop es.length)
              else some r3
          | [] => some r3
        r4.map fun r => (if sn.1 then -(v : Int) else (v : Int), r)

mutual

/-- JSON value parser with explicit fuel. -/
def parseJVal : Nat → List Char → Option (Json × List Char)
  | 0, _ => none
  | f + 1, cs0 =>
      match skipWsJ cs0 with
      | [] => none
      | c :: rest =>
          if c == '\x7b' then
            match skipWsJ rest with
            | '\x7d' :: r => some (Json.obj [], r)
            | r => (parseJMembers f r).map fun p => (Json.obj p.1, p.2)
          else if c == '[' then
            match skipWsJ rest with
            | ']' :: r => some (Json.arr [], r)
            | r => (parseJElems f r).map fun p => (Json.arr p.1, p.2)
          else if c == '"' then
            (parseJStr (rest.length + 1) rest).map fun p => (Json.str (String.mk p.1), p.2)
          else if startsL "true".data (c :: rest) then some (Json.bool true, (c :: rest).drop 4)
          else if startsL "false".data (c :: rest) then some (Json.bool false, (c :: rest).drop 5)
          else if startsL "null".data (c :: rest) then some (Json.null, (c :: rest).drop 4)
          else if c == '-' || isDigitC c then
            (parseJNum (c :: rest)).map fun p => (Json.num p.1, p.2)
          else none

/-- Object members `key : value (, key : value)*` up to the closing
brace. -/
def parseJMembers : Nat → List Char → Option (List (String × Json) × List Char)
  | 0, _ => none
  | f + 1, cs =>
      match skipWsJ cs with
      | '"' :: r =>
          match parseJStr (r.length + 1) r with
          | none => none
          | some (k, r2) =>
              match skipWsJ r2 with
              | ':' :: r3 =>
                  match parseJVal f r3 with
                  | none => none
                  | some (v, r4) =>
                      match skipWsJ r4 with
                      | ',' :: r5 =>
                          (parseJMembers f r5).map fun p =>
                            ((String.mk k, v) :: p.1, p.2)
                      | '\x7d' :: r5 => some ([(String.mk k, v)], r5)
                      | _ => none
              | _ => none
      | _ => none

/-- Array elements `value (, value)*` up to the closing bracket. -/
def parseJElems : Nat → List Char → Option (List Json × List Char)
  | 0, _ => none
  | f + 1, cs =>
      match parseJVal f cs with
      | none => none
      | some (v, r) =>
          match skipWsJ r with
          | ',' :: r2 => (parseJElems f r2).map fun p => (v :: p.1, p.2)
          | ']' :: r2 => some ([v], r2)
          | _ => none

end

/-- Brace span of the reply, the match of `/\x7b[\s\S]*\x7d/`: from the
first opening brace through the last closing brace after it. -/
def extractBraceSpan (reply : String) : Option String :=
  let afterFirst := reply.data.dropWhile (· != '\x7b')
  match afterFirst with
  | [] => none
  | _ :: _ =>
      let rev := afterFirst.reverse.dropWhile (· != '\x7d')
      if rev.isEmpty then none else some (String.mk rev.reverse)

/-- Full `JSON.parse` of a string: one value, then only trailing
whitespace. -/
def parseJsonText (s : String) : Option Json :=
  match parseJVal (s.length * 2 + 8) s.data with
  | some (j, rest) => if (skipWsJ rest).isEmpty then some j else none
  | none => none

/-- Reply handling of the classifier before the override engine: find the
brace span and parse it; `none` models both a missing span and a
`JSON.parse` exception. -/
def parseModelReply (reply : String) : Option Json :=
  (extractBraceSpan reply).bind parseJsonText

/-- Field read of a parsed object (`suggestion.field`): `none` models
`undefined`; a repeated key keeps the last value, as `JSON.parse` does. -/
def getField (j : Json) (k : String) : Option Json :=
  match j with
  | Json.obj fs => (fs.reverse.find? (·.1 == k)).map (·.2)
  | _ => none

/-! ## Suggestion Classifier with the override engine -/

/-- Mutable suggestion object between the parse and the response
building; each field holds `none` for `undefined`. -/
structure SugState where
  type : Option Json
  text : Option Json
  reasoning : Option Json
  goalType : Option Json
  eventDate : Option Json
  eventTime : Option Json
  recurring : Option Json
  recurringDays : Option Json
deriving Repr

/-- Suggestion state read off the parsed model JSON. -/
def sugOfJson (j : Json) : SugState :=
  ⟨getField j "type", getField j "text", getField j "reasoning",
   getField j "goalType", getField j "eventDate", getField j "eventTime",
   getField j "recurring", getField j "recurringDays"⟩

/-- JavaScript falsiness of a field value. -/
def jsFalsy : Option Json → Bool
  | none => true
  | some Json.null => true
  | some (Json.bool false) => true
  | some (Json.num 0) => true
  | some (Json.str "") => true
  | _ => false

/-- JavaScript truthiness of a field value. -/
def jsTruthy (v : Option Json) : Bool := !jsFalsy v

/-- Strict string equality `field === "s"`. -/
def isStr (v : Option Json) (s : String) : Bool :=
  match v with
  | some (Json.str t) => t == s
  | _ => false

/-- The `dayMap` object, in insertion order. -/
def dayMapOrder : List (String × Nat) :=
  [("monday", 1), ("tuesday", 2), ("wednesday", 3), ("thursday", 4),
   ("friday", 5), ("saturday", 6), ("sunday", 0)]

/-- Sunday-first capitalized day names used by the override reasoning. -/
def dayNamesCap : List String :=
  ["Sunday", "Monday", "Tuesday", "Wednesday", "Thursday", "Friday", "Saturday"]

/-- Occurrence of `a` then `\s+` then `b` at the current position. -/
def wsSeqAt (a b cs : List Char) : Bool :=
  if startsL a cs then
    let r := cs.drop a.length
    !(r.takeWhile isWsC).isEmpty && startsL b (r.dropWhile isWsC)
  else false

/-- Occurrence of `a` then `\s+` then `b` anywhere in the text. -/
def hasWsSeq (a b : List Char) : List Char → Bool
  | [] => false
  | c :: rest => wsSeqAt a b (c :: rest) || hasWsSeq a b rest

/-- Red-flag alternatives for one weekday in the post-processing check:
`every <day>`, `every\s+<day>`, `on <day>`, `<day>\s+morning`,
`<day>\s+afternoon`, `<day>\s+evening`. -/
def dayRedFlag (day : String) (msgLower : List Char) : Bool :=
  hasSubL ("every " ++ day).data msgLower ||
  hasWsSeq "every".data day.data msgLower ||
  hasSubL ("on " ++ day).data msgLower ||
  hasWsSeq day.data "morning".data msgLower ||
  hasWsSeq day.data "afternoon".data msgLower ||
  hasWsSeq day.data "evening".data msgLower

/-- Occurrence of `\d+x a week`: a digit directly followed by
`x a week`. -/
def digitXaWeek : List Char → Bool
  | [] => false
  | c :: rest => (isDigitC c && startsL "x a week".data rest) || digitXaWeek rest

/-- The full red-flag test of the post-processing block: any weekday
pattern, `every other`, or a frequency phrase
`\d+x a week|twice a|twice a week|weekly|biweekly`. -/
def hasRedFlagPattern (msgLower : List Char) : Bool :=
  dayNamesIdx.any (fun d => dayRedFlag d msgLower) ||
  hasSubL "every other".data msgLower ||
  (digitXaWeek msgLower || hasSubL "twice a".data msgLower ||
   hasSubL "twice a week".data msgLower || hasSubL "weekly".data msgLower ||
   hasSubL "biweekly".data msgLower)

/-- Weekday numbers mentioned in the message, in `dayMap` iteration
order. -/
def overrideDays (msgLower : List Char) : List Nat :=
  (dayMapOrder.filter fun p => hasSubL p.1.data msgLower).map (·.2)

/-- Event time rebuilt from time-of-day keywords of the message. -/
def overrideTimeStr (msgLower : List Char) : String :=
  if hasSubL "morning".data msgLower then "09:00"
  else if hasSubL "afternoon".data msgLower then "14:00"
  else if hasSubL "evening".data msgLower then "18:00"
  else if hasSubL "night".data msgLower then "20:00"
  else "10:00"

/-- First override block: force the event type and rebuild the recurrence
fields and the reasoning from the message text. -/
def applyOverride (msgLower : List Char) (s : SugState) : SugState :=
  let ds := overrideDays msgLower
  { s with
    type := some (Json.str "event")
    recurring := some (Json.str "weekly")
    recurringDays :=
      if ds.isEmpty then s.recurringDays
      else some (Json.arr (ds.map fun n => Json.num (n : Int)))
    eventTime := some (Json.str (overrideTimeStr msgLower))
    reasoning := some (Json.str
      ("You mentioned doing this every " ++
       String.intercalate " and " (ds.map fun n => (dayNamesCap.get? n).getD "") ++
       " - creating as a recurring event.")) }

/-- Second correction block (red flags with a `daily_goal` answer): same
forcing, without touching the reasoning. -/
def applyOverrideNoReason (msgLower : List Char) (s : SugState) : SugState :=
  let ds := overrideDays msgLower
  { s with
    type := some (Json.str "event")
    recurring := some (Json.str "weekly")
    recurringDays :=
      if ds.isEmpty then s.recurringDays
      else some (Json.arr (ds.map fun n => Json.num (n : Int)))
    eventTime := some (Json.str (overrideTimeStr msgLower)) }

/-- Final response object returned to the route (`responseObj`). -/
structure RespObj where
  reasoning : Option Json
  type : Option String
  goalType : Option String
  text : Option String
  eventDate : Option String
  eventTime : Option String
  recurring : Option Json
  recurringDays : Option Json
deriving Repr

mutual

/-- String rendering of a field value inside a template literal. -/
def jsonToDisplay : Json → String
  | Json.null => "null"
  | Json.bool true => "true"
  | Json.bool false => "false"
  | Json.num n => toString n
  | Json.str s => s
  | Json.arr l => jsonListDisplay l
  | Json.obj _ => "[object Object]"

/-- Array rendering (`Array.prototype.toString`): elements joined with
commas, a `null` element rendered empty. -/
def jsonListDisplay : List Json → String
  | [] => ""
  | [Json.null] => ""
  | [j] => jsonToDisplay j
  | Json.null :: rest => "," ++ jsonListDisplay rest
  | j :: rest => jsonToDisplay j ++ "," ++ jsonListDisplay rest

end

/-- Template-literal rendering of a possibly-missing field value. -/
def jsTemplate : Option Json → String
  | none => "undefined"
  | some j => jsonToDisplay j

/-- Passing a field value to `parseNaturalLanguageTime`: anything but a
string throws a `TypeError` at `text.toLowerCase()`. -/
def jsonAsNLTText : Option Json → Except Unit String
  | some (Json.str s) => Except.ok s
  | _ => Except.error ()

/-- Response building from the (possibly overridden) suggestion state:
goal branches render the text; the event branch normalizes the user
message and the suggestion text, taking the date from the former and the
time from the latter.  A non-string suggestion text makes the event
branch throw. -/
def buildRespObj (now : Nat) (userMsg : String) (s : SugState) :
    Except Unit (Option RespObj) := do
  let base : RespObj := ⟨s.reasoning, none, none, none, none, none, none, none⟩
  if isStr s.type "daily_goal" then
    return some { base with
      type := some "goal", goalType := some "daily",
      text := some (jsTemplate s.text ++ "?") }
  else if isStr s.type "longterm_goal" then
    return some { base with
      type := some "goal", goalType := some "longterm",
      text := some (jsTemplate s.text ++ "?") }
  else if isStr s.type "event" then
    let parsedFromUser := parseNaturalLanguageTime now userMsg
    let sugText ← jsonAsNLTText s.text
    let parsedFromSuggestion := parseNaturalLanguageTime now sugText
    return some { base with
      type := some "event"
      text := some (if jsTruthy s.recurring
        then jsTemplate s.text ++ " (" ++ jsTemplate s.recurring ++ ")?"
        else jsTemplate s.text ++ "?")
      eventDate := some (if parsedFromUser.date ≠ "" then parsedFromUser.date
        else parsedFromSuggestion.date)
      eventTime := some (if parsedFromSuggestion.time ≠ "" then parsedFromSuggestion.time
        else "10:00")
      recurring := if jsTruthy s.recurring then s.recurring else none
      recurringDays := if jsTruthy s.recurringDays then s.recurringDays else none }
  else
    return some base

/-- One recent chat message seen by the classifier. -/
structure ChatMsg where
  role : String
  content : String
deriving Repr, DecidableEq

/-- The suggestion classifier `generateAISuggestion` after the model
reply arrives: extract and parse the JSON (both failures recover to no
suggestion), run the red-flag override engine against the most recent
user message, and build the response object; an exception inside the
try block (the event branch on a non-string text) is caught and also
yields no suggestion. -/
def generateAISuggestionCore (now : Nat) (recentMessages : List ChatMsg)
    (modelReply : String) : Option RespObj :=
  let userMessages := recentMessages.filter (·.role == "user")
  let mostRecent := ((userMessages.getLast?).map (·.content)).getD ""
  let msgLower := lowerL mostRecent.data
  match parseModelReply modelReply with
  | none => none
  | some j =>
      let s0 := sugOfJson j
      let flag := hasRedFlagPattern msgLower
      let s1 := if flag then applyOverride msgLower s0 else s0
      if jsFalsy s1.type then none
      else
        let s2 := if flag && isStr s1.type "daily_goal"
          then applyOverrideNoReason msgLower s1 else s1
        match buildRespObj now mostRecent s2 with
        | Except.ok r => r
        | Except.error _ => none

/-! ## Auxiliary specification-side definitions -/

/-- Numeric rank of a confidence string, for the monotonicity ordering
`low < medium < high`. -/
def confRank (s : String) : Nat :=
  if s = "high" then 2 else if s = "medium" then 1 else 0

/-- Validity of a 24-hour `HH:mm` clock string. -/
def validHHMM (s : String) : Bool :=
  match s.data with
  | [h1, h2, ':', m1, m2] =>
      isDigitC h1 && isDigitC h2 && isDigitC m1 && isDigitC m2 &&
      (10 * dval h1 + dval h2 < 24) && (10 * dval m1 + dval m2 < 60)
  | _ => false

/-! # Theorems

First the shared structural lemmas, then one theorem per claim. -/

/-- The confidence of every parse result is exactly the verdict cascade
applied to the presence of its own three fields. -/
theorem parse_conf_eq (text : String) :
    (parseOnboardingReply text).confidence =
      confOf (hasNameR (parseOnboardingReply text))
        (hasGoalsR (parseOnboardingReply text))
        (hasToneR (parseOnboardingReply text)) := by
  unfold parseOnboardingReply
  split <;> rfl

/-- A verdict other than `low` requires the goals flag. -/
theorem confOf_ne_low_goals (a b c : Bool) : confOf a b c ≠ "low" → b = true := by
  revert a b c
  decide

/-- The verdict rank is monotone in the three presence flags. -/
theorem confRank_mono (a b c a' b' c' : Bool) :
    (a = true → a' = true) → (b = true → b' = true) → (c = true → c' = true) →
    confRank (confOf a b c) ≤ confRank (confOf a' b' c') := by
  revert a b c a' b' c'
  decide

/-- A clock match exists exactly when the text contains a digit. -/
theorem clockFrom_isSome (cs : List Char) : (clockFrom cs).isSome = cs.any isDigitC := by
  induction cs with
  | nil => rfl
  | cons c rest ih =>
      simp only [clockFrom, List.any_cons]
      by_cases h : isDigitC c = true
      · simp [h]
      · simp only [Bool.not_eq_true] at h
        simp [h, ih]

/-- The deduplication worker returns a sublist of its input. -/
theorem dedup_go_sublist (seen l : List String) : (dedupCI.go seen l).Sublist l := by
  induction l generalizing seen with
  | nil => simp [dedupCI.go]
  | cons g t ih =>
      simp only [dedupCI.go]
      split
      · exact (ih seen).cons g
      · exact (ih _).cons₂ g

/-- No element returned by the worker has its lower-cased form in the
`seen` accumulator. -/
theorem dedup_go_lower_not_mem (seen l : List String) :
    ∀ x ∈ dedupCI.go seen l, seen.contains (lowerS x) = false := by
  induction l generalizing seen with
  | nil => simp [dedupCI.go]
  | cons g t ih =>
      intro x hx
      simp only [dedupCI.go] at hx
      split at hx
      · exact ih seen x hx
      · rename_i hns
        rcases List.mem_cons.mp hx with h | h
        · subst h
          exact Bool.eq_false_iff.mpr hns
        · have h2 := ih (lowerS g :: seen) x h
          rw [List.contains_cons] at h2
          exact (Bool.or_eq_false_iff.mp h2).2

/-- The deduplicated list is pairwise distinct up to case. -/
theorem dedup_go_pairwise (seen l : List String) :
    List.Pairwise (fun a b => lowerS a ≠ lowerS b) (dedupCI.go seen l) := by
  induction l generalizing seen with
  | nil => simp [dedupCI.go]
  | cons g t ih =>
      simp only [dedupCI.go]
      split
      · exact ih seen
      · refine List.Pairwise.cons ?_ (ih _)
        intro b hb heq
        have h2 := dedup_go_lower_not_mem (lowerS g :: seen) t b hb
        rw [List.contains_cons] at h2
        have := (Bool.or_eq_false_iff.mp h2).1
        rw [heq] at this
        simp at this

/-- Lookup by lower-cased key is unchanged by the deduplication: the first
occurrence of every case-class survives. -/
theorem dedup_go_find (c : String) (seen l : List String)
    (h : seen.contains c = false) :
    (dedupCI.go seen l).find? (fun g => lowerS g == c) =
      l.find? (fun g => lowerS g == c) := by
  induction l generalizing seen with
  | nil => rfl
  | cons g t ih =>
      simp only [dedupCI.go]
      split
      · rename_i hcon
        have hne : (lowerS g == c) = false := by
          cases heq : lowerS g == c
          · rfl
          · exfalso
            rw [eq_of_beq heq] at hcon
            rw [hcon] at h
            exact absurd h (by decide)
        rw [ih seen h]
        simp [List.find?_cons, hne]
      · rename_i hns
        cases heq : (lowerS g == c)
        · simp only [List.find?_cons, heq]
          refine ih (lowerS g :: seen) ?_
          rw [List.contains_cons, Bool.or_eq_false_iff]
          refine ⟨?_, h⟩
          cases hcq : c == lowerS g
          · rfl
          · exfalso
            rw [eq_of_beq hcq] at heq
            simp at heq
        · simp only [List.find?_cons, heq]

/-- The capped goal list has at most ten entries. -/
theorem cappedGoals_le (text : String) : (cappedGoals text).length ≤ 10 := by
  simp only [cappedGoals]
  split
  · exact List.length_take_le 10 (extractGoalsRaw text)
  · omega

/-- The final goal list has at most ten entries. -/
theorem parse_goals_le (text : String) : (parseOnboardingReply text).goals.length ≤ 10 := by
  unfold parseOnboardingReply
  split
  · simp
  · exact le_trans (List.Sublist.length_le (dedup_go_sublist [] _))
      (cappedGoals_le text)

/-- On long-enough input the goal list is exactly the deduplication of the
capped candidates. -/
theorem parse_goals_eq (text : String) (h : (trimL text.data).length ≥ 20) :
    (parseOnboardingReply text).goals = dedupCI (cappedGoals text) := by
  unfold parseOnboardingReply
  rw [if_neg (by omega)]

/-- When more than ten goal candidates are found on long-enough input,
the truncation warning (carrying the candidate count) is among the
warnings of the parse result. -/
theorem goals_trunc_warning (text : String)
    (hlen : (trimL text.data).length ≥ 20)
    (hgt : (extractGoalsRaw text).length > 10) :
    ("Extracted " ++ toString (extractGoalsRaw text).length ++
      " goals - may be too many, truncating to 10") ∈
      (parseOnboardingReply text).warnings := by
  have hg : goalsWarnings text =
      ["Extracted " ++ toString (extractGoalsRaw text).length ++
        " goals - may be too many, truncating to 10"] := by
    simp only [goalsWarnings]
    split
    · rename_i hemp
      exfalso
      cases hraw : extractGoalsRaw text with
      | nil => rw [hraw] at hgt; simp at hgt
      | cons a t => rw [hraw] at hemp; simp at hemp
    · simp [hgt]
  unfold parseOnboardingReply
  rw [if_neg (by omega)]
  simp [hg]

/-- A non-`low` parse never has an empty data payload (goals are forced). -/
theorem payload_not_empty (msg : String)
    (h : (parseOnboardingReply msg).confidence ≠ "low") :
    payloadDataEmpty (parseOnboardingReply msg) = false := by
  have hb : hasGoalsR (parseOnboardingReply msg) = true := by
    refine confOf_ne_low_goals (hasNameR (parseOnboardingReply msg)) _
      (hasToneR (parseOnboardingReply msg)) ?_
    rw [← parse_conf_eq msg]
    exact h
  unfold payloadDataEmpty
  unfold hasGoalsR at hb
  rw [Bool.not_eq_true'] at hb
  simp [hb]

/-- The main-flow conditions forced by a cache write inside one chat
turn: the model call succeeded, its text is the response, and the call is
in the trace. -/
theorem chatMain_write (env : ChatEnv) (msg : String) :
    Effect.cacheWrite ∈ (chatMain env msg).2 →
      env.modelOk = true ∧ (chatMain env msg).1 = some env.modelResponse ∧
      Effect.llmCall (selectModelForTask msg == "cheap") ∈ (chatMain env msg).2 := by
  simp only [chatMain]
  split
  · intro h
    simp at h
  · split
    · intro h
      simp [List.mem_map] at h
    · split
      · intro h
        simp [List.mem_map] at h
      · split
        · rename_i hok
          intro _
          refine ⟨hok, rfl, ?_⟩
          simp
        · intro h
          simp [List.mem_map] at h

/-! ## C1 — Override supremacy, evaluated at the spec example -/

/-- Claim C1: on the text `I want to hike every Saturday morning` with a
model proposal of kind `daily_goal` and text `hike`, the override fires:
the final suggestion is an `event`, `recurring = weekly`,
`recurringDays = [6]` — but its returned `eventTime` is `10:00`, not the
`09:00` the claim states: the override's rebuilt time is clobbered by the
response builder, which re-derives the time from the model's text
(`hike`, which has no time), not from the user text. -/
theorem c1_override_eventTime_clobbered :
    (generateAISuggestionCore 20733
        [⟨"user", "I want to hike every Saturday morning"⟩]
        "\x7b\"type\": \"daily_goal\", \"text\": \"hike\", \"reasoning\": \"wants exercise\"\x7d"
      = some
        ⟨some (Json.str
            "You mentioned doing this every Saturday - creating as a recurring event."),
          some "event", none, some "hike (weekly)?", some "2026-10-09",
          some "10:00", some (Json.str "weekly"),
          some (Json.arr [Json.num 6])⟩) ∧
    ((generateAISuggestionCore 20733
        [⟨"user", "I want to hike every Saturday morning"⟩]
        "\x7b\"type\": \"daily_goal\", \"text\": \"hike\", \"reasoning\": \"wants exercise\"\x7d").map
        RespObj.eventTime ≠ some (some "09:00")) := by
  constructor
  · rfl
  · intro h
    rw [show (generateAISuggestionCore 20733
        [⟨"user", "I want to hike every Saturday morning"⟩]
        "\x7b\"type\": \"daily_goal\", \"text\": \"hike\", \"reasoning\": \"wants exercise\"\x7d").map
        RespObj.eventTime = some (some "10:00") from rfl] at h
    simp at h

/-! ## C2 — Time normalization of `next <weekday>` -/

/-- Claim C2, evaluated: 20733 days after the epoch is Wednesday
2026-10-07 (`getDay = 3`); `next monday at 3pm` is normalized by the code
to `2026-10-11` — only 4 days ahead, a Sunday (`getDay = 0`) — with time
`15:00`, while the next Monday is 5 days ahead, `2026-10-12`.  The
`days.indexOf` numbering (Monday = 0) is compared against `getDay`
(Sunday = 0), landing one day short of every requested weekday. -/
theorem c2_next_weekday_offset :
    dowOf 20733 = 3 ∧ isoOfDays 20733 = "2026-10-07" ∧
    parseNaturalLanguageTime 20733 "next monday at 3pm" = ⟨"2026-10-11", "15:00"⟩ ∧
    isoOfDays (20733 + 4) = "2026-10-11" ∧ dowOf (20733 + 4) = 0 ∧
    isoOfDays (20733 + 5) = "2026-10-12" ∧ dowOf (20733 + 5) = 1 := by
  refine ⟨rfl, rfl, rfl, rfl, rfl, rfl, rfl⟩

/-! ## C3 — Confidence formula -/

/-- Claim C3: for every input text, the parse confidence is `high` iff
name, at least one goal and tone were all extracted; `medium` iff exactly
the pair name+goals or exactly the pair goals+tone was extracted; and
`low` in every other case. -/
theorem c3_confidence_iff (text : String) :
    ((parseOnboardingReply text).confidence = "high" ↔
      (hasNameR (parseOnboardingReply text) = true ∧
       hasGoalsR (parseOnboardingReply text) = true ∧
       hasToneR (parseOnboardingReply text) = true)) ∧
    ((parseOnboardingReply text).confidence = "medium" ↔
      ((hasNameR (parseOnboardingReply text) = true ∧
        hasGoalsR (parseOnboardingReply text) = true ∧
        hasToneR (parseOnboardingReply text) = false) ∨
       (hasNameR (parseOnboardingReply text) = false ∧
        hasGoalsR (parseOnboardingReply text) = true ∧
        hasToneR (parseOnboardingReply text) = true))) ∧
    ((parseOnboardingReply text).confidence = "low" ↔
      (¬(hasNameR (parseOnboardingReply text) = true ∧
         hasGoalsR (parseOnboardingReply text) = true ∧
         hasToneR (parseOnboardingReply text) = true) ∧
       ¬((hasNameR (parseOnboardingReply text) = true ∧
          hasGoalsR (parseOnboardingReply text) = true ∧
          hasToneR (parseOnboardingReply text) = false) ∨
         (hasNameR (parseOnboardingReply text) = false ∧
          hasGoalsR (parseOnboardingReply text) = true ∧
          hasToneR (parseOnboardingReply text) = true)))) := by
  rw [parse_conf_eq text]
  generalize hasNameR (parseOnboardingReply text) = a
  generalize hasGoalsR (parseOnboardingReply text) = b
  generalize hasToneR (parseOnboardingReply text) = c
  revert a b c
  decide

/-! ## C4 — Cache discipline -/

/-- Counterexample to claim C4: a first-contact turn whose response is
the onboarding prompt nonetheless performs a cache lookup — the handler
consults the cache first on every turn, so the claimed "no cache lookup
occurs" on such turns is false. -/
theorem c4_cache_lookup_on_prompt_cex :
    (generateChatResponse ⟨[], 0, 20733, [], "", true, "resp"⟩ "u1" "hello").1 =
      some onboardingPrompt ∧
    Effect.cacheLookup ∈
      (generateChatResponse ⟨[], 0, 20733, [], "", true, "resp"⟩ "u1" "hello").2 := by
  exact ⟨rfl, by decide⟩

/-- Amended claim C4: the cache lookup is the first effect of every turn,
including those answered by the onboarding prompt, the clarification
re-prompt or the extraction acknowledgement; and a cache write happens
only after a successful main-flow model call, whose text is then the
turn's response. -/
theorem c4_cache_discipline_amended (env : ChatEnv) (userId msg : String) :
    (generateChatResponse env userId msg).2.head? = some Effect.cacheLookup ∧
    (Effect.cacheWrite ∈ (generateChatResponse env userId msg).2 →
      env.modelOk = true ∧
      (generateChatResponse env userId msg).1 = some env.modelResponse ∧
      Effect.llmCall (selectModelForTask msg == "cheap") ∈
        (generateChatResponse env userId msg).2) := by
  have hm := chatMain_write env msg
  simp only [generateChatResponse]
  rcases hc : getCachedResponse env.cache env.nowMs userId msg with _ | r
  · simp only [hc]
    refine ⟨rfl, ?_⟩
    intro h
    have h' : Effect.cacheWrite ∈ (chatMain env msg).2 := by
      rcases List.mem_cons.mp h with h0 | h0
      · cases h0
      · exact h0
    rcases hm h' with ⟨h1, h2, h3⟩
    exact ⟨h1, h2, List.mem_cons_of_mem _ h3⟩
  · simp only [hc]
    by_cases hr : r == ""
    · simp only [hr, if_true]
      refine ⟨rfl, ?_⟩
      intro h
      have h' : Effect.cacheWrite ∈ (chatMain env msg).2 := by
        rcases List.mem_cons.mp h with h0 | h0
        · cases h0
        · exact h0
      rcases hm h' with ⟨h1, h2, h3⟩
      exact ⟨h1, h2, List.mem_cons_of_mem _ h3⟩
    · rw [if_neg hr]
      refine ⟨rfl, ?_⟩
      intro h
      rcases List.mem_cons.mp h with h0 | h0
      · cases h0
      · cases h0

/-- Witness for the amended C4 at a concrete environment and message. -/
theorem c4_cache_discipline_amended_witness :
    (generateChatResponse ⟨[], 0, 20733, ["prior"], "ctx", true, "resp"⟩ "u"
        "how can I sleep better").2.head? = some Effect.cacheLookup ∧
    (Effect.cacheWrite ∈ (generateChatResponse ⟨[], 0, 20733, ["prior"], "ctx", true, "resp"⟩
        "u" "how can I sleep better").2 →
      (⟨[], 0, 20733, ["prior"], "ctx", true, "resp"⟩ : ChatEnv).modelOk = true ∧
      (generateChatResponse ⟨[], 0, 20733, ["prior"], "ctx", true, "resp"⟩ "u"
        "how can I sleep better").1 = some (⟨[], 0, 20733, ["prior"], "ctx", true, "resp"⟩ : ChatEnv).modelResponse ∧
      Effect.llmCall (selectModelForTask "how can I sleep better" == "cheap") ∈
        (generateChatResponse ⟨[], 0, 20733, ["prior"], "ctx", true, "resp"⟩ "u"
          "how can I sleep better").2) :=
  c4_cache_discipline_amended ⟨[], 0, 20733, ["prior"], "ctx", true, "resp"⟩ "u"
    "how can I sleep better"

/-! ## C5 — Goal deduplication -/

/-- Counterexample to claim C5: the spec example yields two goals, not
one — case-insensitive deduplication merges `fitness` and `Fitness`, but
`GET FIT` is a different string and survives. -/
theorem c5_dedup_two_goals_cex :
    (parseOnboardingReply "Goals: fitness, Fitness, GET FIT").goals =
      ["fitness", "GET FIT"] ∧
    (parseOnboardingReply "Goals: fitness, Fitness, GET FIT").goals.length ≠ 1 := by
  exact ⟨rfl, by decide⟩

/-- Amended claim C5: the example input yields exactly the two goals
`fitness` and `GET FIT`; in general the goal list is the case-insensitive
deduplication (first occurrence wins, order preserved: a sublist with
pairwise distinct lower-casings whose per-key first occurrence matches the
input's) of the candidate list capped at ten entries, so it never exceeds
ten; and whenever more than ten candidates were found, the truncation
warning naming the candidate count is recorded — shown in general and at
a concrete eleven-goal input. -/
theorem c5_dedup_amended :
    (parseOnboardingReply "Goals: fitness, Fitness, GET FIT").goals =
      ["fitness", "GET FIT"] ∧
    (∀ text : String, (trimL text.data).length ≥ 20 →
        (parseOnboardingReply text).goals = dedupCI (cappedGoals text)) ∧
    (∀ l : List String, (dedupCI l).Sublist l) ∧
    (∀ l : List String, List.Pairwise (fun a b => lowerS a ≠ lowerS b) (dedupCI l)) ∧
    (∀ (l : List String) (c : String),
        (dedupCI l).find? (fun g => lowerS g == c) =
          l.find? (fun g => lowerS g == c)) ∧
    (∀ text : String, (parseOnboardingReply text).goals.length ≤ 10) ∧
    (∀ text : String, (trimL text.data).length ≥ 20 →
        (extractGoalsRaw text).length > 10 →
        ("Extracted " ++ toString (extractGoalsRaw text).length ++
          " goals - may be too many, truncating to 10") ∈
          (parseOnboardingReply text).warnings) ∧
    ((parseOnboardingReply
        "Goals: aaa, bbb, ccc, ddd, eee, fff, ggg, hhh, iii, jjj, kkk").goals.length = 10 ∧
     "Extracted 11 goals - may be too many, truncating to 10" ∈
       (parseOnboardingReply
         "Goals: aaa, bbb, ccc, ddd, eee, fff, ggg, hhh, iii, jjj, kkk").warnings) := by
  refine ⟨rfl, fun text h => parse_goals_eq text h, fun l => dedup_go_sublist [] l,
    fun l => dedup_go_pairwise [] l, fun l c => dedup_go_find c [] l rfl,
    fun text => parse_goals_le text,
    fun text h1 h2 => goals_trunc_warning text h1 h2,
    by decide, by decide⟩

/-- Witness for the amended C5: the dedup-shape conjunct at a concrete
long-enough input, and the truncation-warning conjunct at the concrete
eleven-goal input. -/
theorem c5_dedup_amended_witness :
    (parseOnboardingReply "Goals: run fast, Run Fast, swim").goals =
      dedupCI (cappedGoals "Goals: run fast, Run Fast, swim") ∧
    "Extracted 11 goals - may be too many, truncating to 10" ∈
      (parseOnboardingReply
        "Goals: aaa, bbb, ccc, ddd, eee, fff, ggg, hhh, iii, jjj, kkk").warnings :=
  ⟨c5_dedup_amended.2.1 "Goals: run fast, Run Fast, swim" (by decide),
   c5_dedup_amended.2.2.2.2.2.2.1
     "Goals: aaa, bbb, ccc, ddd, eee, fff, ggg, hhh, iii, jjj, kkk"
     (by decide) (by decide)⟩

/-! ## C6 — Override on an absent model suggestion -/

/-- Claim C6 against the code: the user text matches a red-flag pattern,
and the model reply is exactly the documented no-suggestion shape, yet
the classifier returns no suggestion: the override forces the event type,
and the response builder then crashes on the reply's missing `text` field
(it is handed to the time normalizer), which the catch turns into `null`.
The third conjunct shows the override does manufacture the event when the
same reply carries a `text` string. -/
theorem c6_null_kind_override_crash :
    hasRedFlagPattern (lowerL "I want to hike every Saturday morning".data) = true ∧
    generateAISuggestionCore 20733 [⟨"user", "I want to hike every Saturday morning"⟩]
      "\x7b\"type\": null\x7d" = none ∧
    (generateAISuggestionCore 20733 [⟨"user", "I want to hike every Saturday morning"⟩]
      "\x7b\"type\": null, \"text\": \"hike\"\x7d").map RespObj.type =
        some (some "event") := by
  exact ⟨rfl, rfl, rfl⟩

/-! ## C7 — Persistence gating -/

/-- Claim C7: a low-confidence extraction is never written to the store;
when the parser runs (long-enough text, gate keywords present) and the
confidence is not low, exactly one upsert happens, whose payload holds
exactly the non-empty extracted fields plus the extraction metadata. -/
theorem c7_persistence_gating (now : Nat) (msg : String) :
    ((parseOnboardingReply msg).confidence = "low" →
      tryHandleOnboardingReply now msg = (false, [])) ∧
    ((trimL msg.data).length ≥ 20 →
     (gateHasName (lowerL msg.data) || gateHasGoals (lowerL msg.data) ||
       gateHasTone (lowerL msg.data)) = true →
     (parseOnboardingReply msg).confidence ≠ "low" →
     tryHandleOnboardingReply now msg = (true,
       [⟨if hasNameR (parseOnboardingReply msg) then
           some (parseOnboardingReply msg).summary else none,
         if !(parseOnboardingReply msg).goals.isEmpty then
           some (padFour (civilOfDays now).1, (parseOnboardingReply msg).goals)
         else none,
         (parseOnboardingReply msg).tone,
         now,
         (parseOnboardingReply msg).confidence,
         if !(parseOnboardingReply msg).warnings.isEmpty then
           some (parseOnboardingReply msg).warnings else none⟩])) := by
  constructor
  · intro h
    simp only [tryHandleOnboardingReply]
    split
    · rfl
    · split <;> simp [h]
  · intro hlen hgate hconf
    simp only [tryHandleOnboardingReply]
    rw [if_neg (by omega)]
    rw [if_neg (by simp [hgate])]
    rw [if_neg hconf]
    rw [if_neg (by simp [payload_not_empty msg hconf])]
    rfl

/-- Witness for C7 at a concrete medium-confidence onboarding reply. -/
theorem c7_persistence_gating_witness :
    tryHandleOnboardingReply 20733 "My name is Alex. Goals: improve focus and clarity" =
      (true, [⟨some "Alex", some ("2026", ["improve focus and clarity"]), none, 20733,
        "medium", some ["No tone/motivation preference detected"]⟩]) := by
  have h := (c7_persistence_gating 20733
    "My name is Alex. Goals: improve focus and clarity").2
    (by decide) (by decide) (by decide)
  rw [h]
  rfl

/-! ## C8 — Confidence monotonicity -/

/-- Claim C8: whenever one input's extracted fields include another's
(name, goals and tone presence each no smaller), the confidence level
does not decrease, under the ordering low < medium < high. -/
theorem c8_confidence_monotonicity (t1 t2 : String) :
    (hasNameR (parseOnboardingReply t1) = true → hasNameR (parseOnboardingReply t2) = true) →
    (hasGoalsR (parseOnboardingReply t1) = true → hasGoalsR (parseOnboardingReply t2) = true) →
    (hasToneR (parseOnboardingReply t1) = true → hasToneR (parseOnboardingReply t2) = true) →
    confRank (parseOnboardingReply t1).confidence ≤
      confRank (parseOnboardingReply t2).confidence := by
  intro h1 h2 h3
  rw [parse_conf_eq t1, parse_conf_eq t2]
  exact confRank_mono _ _ _ _ _ _ h1 h2 h3

/-- Witness for C8: adding an explicit name to a goals-only reply moves
the confidence from low to medium. -/
theorem c8_confidence_monotonicity_witness :
    confRank (parseOnboardingReply "Goals: improve focus and clarity").confidence ≤
      confRank (parseOnboardingReply
        "My name is Alex. Goals: improve focus and clarity").confidence :=
  c8_confidence_monotonicity "Goals: improve focus and clarity"
    "My name is Alex. Goals: improve focus and clarity"
    (by decide) (by decide) (by decide)

/-! ## C9 — Malformed model output recovery -/

/-- Claim C9: whenever no JSON object can be extracted and parsed from
the model reply, the classifier returns no suggestion; the recovery is
total (the parse failure is never re-raised: the classifier is a total
function into an option). -/
theorem c9_malformed_reply_recovered (now : Nat) (msgs : List ChatMsg) (reply : String) :
    parseModelReply reply = none → generateAISuggestionCore now msgs reply = none := by
  intro h
  simp only [generateAISuggestionCore, h]

/-- Witness for C9 at a reply with no JSON at all. -/
theorem c9_malformed_reply_recovered_witness :
    parseModelReply "I cannot make a suggestion here." = none ∧
    generateAISuggestionCore 0 [] "I cannot make a suggestion here." = none :=
  ⟨rfl, c9_malformed_reply_recovered 0 [] "I cannot make a suggestion here." rfl⟩

/-! ## C10 — Bare-number time capture -/

/-- Claim C10 (implicit): any clock-regex match — which exists exactly
when the text contains a digit, even a non-time number like `in 30
minutes` or `book 3 rooms` — dictates the returned time, overriding any
time-of-day keyword; the result can be an invalid hour such as `30:00`. -/
theorem c10_bare_number_hour :
    (∀ (now : Nat) (text : String) (m : ClockMatch),
        clockFrom text.data = some m →
        (parseNaturalLanguageTime now text).time = fmtClock m) ∧
    (∀ text : String, (clockFrom text.data).isSome = text.data.any isDigitC) ∧
    (parseNaturalLanguageTime 20733 "in 30 minutes").time = "30:00" ∧
    (parseNaturalLanguageTime 20733 "book 3 rooms").time = "03:00" ∧
    (parseNaturalLanguageTime 20733 "this morning in 30 minutes").time = "30:00" ∧
    validHHMM "30:00" = false := by
  refine ⟨?_, fun text => clockFrom_isSome text.data, rfl, rfl, rfl, rfl⟩
  intro now text m h
  simp only [parseNaturalLanguageTime, h]
  rfl

/-- Witness for C10's override conjunct at a concrete input. -/
theorem c10_bare_number_hour_witness :
    (parseNaturalLanguageTime 5 "wait 45 min").time = fmtClock ⟨45, 0, none⟩ :=
  c10_bare_number_hour.1 5 "wait 45 min" ⟨45, 0, none⟩ rfl

end Coach
